import Mathlib

/-!
Verification of the LexUse candidate-selection and exclusion workflow.

This file is a shallow embedding of the functions in src/util.py that the
specification describes: the exclusion store (save_to_exclude_list,
in_exclude_list), the sentence pipeline (get_sentences_from_apis,
process_result, present_sentence, count_words), the sense resolver
(prompt_sense_approval, prompt_choose_sense), the edit submitter
(add_usage_example) and the sampling loop (process_lexeme_data).

External collaborators (SPARQL queries, the Riksdagen corpus, console
input, the wiki write API) are modelled as an oracle record of pure
functions; console output and sleeps are not modelled.  Fatal endings of
the process, namely explicit exit(n) calls and uncaught Python
exceptions, are modelled by the Halt type and Except.  Observable
side effects that the claims talk about (presenting a sentence,
building a claim object, the network edit, the watchlist call, writing
the exclusion file, the sense count query) are recorded as Event values.
-/

/-- Fatal process endings: an explicit exit(n), or an uncaught Python
exception, which also terminates the interpreter with a non-zero code. -/
inductive Halt where
  | exitCode (n : Nat)
  | uncaughtException
deriving DecidableEq, Repr

/-- The value stored for one key of exclude_list.json: the dictionary
dict(word=..., date=..., lang=...) built in save_to_exclude_list. -/
structure FormData where
  word : String
  date : String
  lang : String
deriving DecidableEq, Repr

/-- The parsed content of exclude_list.json: a JSON object whose top
level keys are form identifiers.  Modelled as an association list in
key insertion order, with unique keys (Python dict semantics). -/
abbrev ExcludeList := List (String × FormData)

/-- State of the exclude_list.json file when it exists: a valid JSON
object, an empty file, or unparseable content (json.loads raises). -/
inductive FileContent where
  | valid (m : ExcludeList)
  | empty
  | corrupt
deriving DecidableEq, Repr

/-- One SPARQL result row of fetch_lexeme_forms: the four bindings
l, form, word and catLabel that extract_data reads. -/
structure Row where
  l : String
  form : String
  word : String
  catLabel : String
deriving DecidableEq, Repr

/-- The constant wd_prefix of util.py. -/
def wd_uri : String := "http://www.wikidata.org/entity/"

/-- The dictionary returned by extract_data. -/
structure RowData where
  lid : String
  form_id : String
  word : String
  word_spaces : String
  word_angle_parens : String
  category : String
deriving DecidableEq, Repr

/-- Python str.replace on character lists: replace every
non-overlapping occurrence of pattern, scanning left to right.  The
fuel argument (instantiated with the length of the scanned list) makes
the recursion structural so that concrete evaluations reduce inside
the kernel; each step consumes at least one character, so the fuel
never runs out.  An empty pattern is treated as having no occurrences,
which never arises here since the only pattern used is the non-empty
entity URI. -/
def replaceChars (pattern replacement : List Char) : Nat → List Char → List Char
  | _, [] => []
  | 0, s => s
  | fuel + 1, c :: cs =>
    if pattern ≠ [] ∧ pattern.isPrefixOf (c :: cs) then
      replacement ++ replaceChars pattern replacement fuel ((c :: cs).drop pattern.length)
    else
      c :: replaceChars pattern replacement fuel cs

/-- Python str.replace, the call s.replace(old, new) of util.py. -/
def pyReplace (s pattern replacement : String) : String :=
  ⟨replaceChars pattern.data replacement.data s.data.length s.data⟩

/-- extract_data of util.py: strips the entity URI from the l and form
bindings and derives the helper strings. -/
def extract_data (r : Row) : RowData :=
  let lid := pyReplace r.l wd_uri ""
  let form_id := pyReplace r.form wd_uri ""
  let word := r.word
  { lid := lid
    form_id := form_id
    word := word
    word_spaces := " " ++ word ++ " "
    word_angle_parens := ">" ++ word ++ "<"
    category := r.catLabel }

/-- One sense row returned by the fetch_senses SPARQL query: a sense id
and its gloss in the configured language. -/
structure Sense where
  sense_id : String
  gloss : String
deriving DecidableEq, Repr

/-- The dictionary returned by prompt_sense_approval on success:
sense_id and sense_gloss. -/
structure SenseApproval where
  sense_id : String
  sense_gloss : String
deriving DecidableEq, Repr

/-- The value of the sentence dictionary built from the corpus search:
a document id and an optional publication date. -/
structure DocData where
  document_id : String
  date : Option String
deriving DecidableEq, Repr

/-- The mapping of candidate sentence text to document metadata, in
dictionary insertion order with unique keys. -/
abbrev SentencesMap := List (String × DocData)

/-- The data of the statement object that add_usage_example builds and
submits: value, qualifiers and the varying reference fields. -/
structure EditPayload where
  document_id : Option String
  sentence : Option String
  lid : Option String
  form_id : Option String
  sense_id : Option String
  publication_date : String
  lang : String
deriving DecidableEq, Repr

/-- Observable side effects of the workflow. -/
inductive Event where
  | presented (sentence : String)
  | claimBuilt (payload : EditPayload)
  | submitted (payload : EditPayload) (success : Bool)
  | watchlisted (lid : String)
  | saved (form_id : String)
  | countQueried (lid : String)
  | reportedGlossRepair (lid : String)
  | reportedNoSenses
deriving DecidableEq, Repr

/-- True for the network edit event of add_usage_example. -/
def Event.isSubmitted : Event → Bool
  | .submitted _ _ => true
  | _ => false

/-- True for the exclusion store write event of save_to_exclude_list. -/
def Event.isSaved : Event → Bool
  | .saved _ => true
  | _ => false

/-- External collaborators and operator console answers, as pure
functions.  Each field stands for one input channel of util.py. -/
structure Oracle where
  /-- Result rows of the fetch_senses SPARQL query for an entry id
  (senses carrying P5137 and a gloss in the configured language),
  in the order the dictionary keyed 1..n is built from them. -/
  fetchSenses : String → List Sense
  /-- Result of the count_number_of_senses_with_P5137 SPARQL query for
  an entry id: the number of senses carrying P5137 and any gloss. -/
  countP5137 : String → Nat
  /-- Answer of yes_no_question, keyed by the gloss shown. -/
  yesNo : String → Bool
  /-- The first integer the operator enters in prompt_choose_sense,
  keyed by the entry id (non-integer input only re-prompts). -/
  chooseInput : String → Int
  /-- Answer of yes_no_skip_question for a sentence: some true is yes,
  some false is no, none is skip. -/
  suitable : String → Option Bool
  /-- Whether datetime.fromisoformat accepts this date string. -/
  isoValid : String → Bool
  /-- Truthiness of the item.write result for the submitted claim. -/
  submitEdit : EditPayload → Bool

/-- Python dict assignment on the association list: overwrite the value
in place for an existing key, otherwise append the new key. -/
def updateKey (m : ExcludeList) (k : String) (v : FormData) : ExcludeList :=
  if (m.map Prod.fst).contains k then
    m.map (fun p => if p.1 = k then (k, v) else p)
  else
    m ++ [(k, v)]

/-- save_to_exclude_list of util.py.  The file argument is the state of
exclude_list.json (none when the file does not exist), data is the
extract_data dictionary (None aborts with exit(1)), lang is
config.language_code and dateNow the datetime.now().isoformat() string.
When the file exists with empty content the function prints an error
and calls exit(1); unparseable content raises in json.loads (after the
file was already reopened for writing), which is an uncaught
exception. -/
def save_to_exclude_list (file : Option FileContent) (data : Option RowData)
    (lang dateNow : String) : Except Halt FileContent :=
  match data with
  | none => .error (.exitCode 1)
  | some d =>
    let form_data : FormData := { word := d.word, date := dateNow, lang := lang }
    match file with
    | none => .ok (.valid [(d.form_id, form_data)])
    | some (.valid m) => .ok (.valid (updateKey m d.form_id form_data))
    | some .empty => .error (.exitCode 1)
    | some .corrupt => .error .uncaughtException

/-- in_exclude_list of util.py.  Returns false when the file does not
exist.  When it exists, json.loads runs on the raw content with no
length check, so empty as well as unparseable content raises an
uncaught exception.  The loop compares the lid field of the row data
with each stored key and the configured language with the stored lang
value, returning true on the first match. -/
def in_exclude_list (file : Option FileContent) (data : RowData)
    (lang : String) : Except Halt Bool :=
  match file with
  | none => .ok false
  | some (.valid m) => .ok (m.any fun p => data.lid == p.1 && lang == p.2.lang)
  | some .empty => .error .uncaughtException
  | some .corrupt => .error .uncaughtException

/-- True when the store operation ended the process with a non-zero
exit code: an explicit exit(n) with n different from zero, or an
uncaught exception. -/
def fatalNonzero {α : Type} : Except Halt α → Bool
  | .error (.exitCode n) => n != 0
  | .error .uncaughtException => true
  | .ok _ => false

/-- add_usage_example of util.py.  The seven value arguments mirror the
Python keyword arguments, each defaulting to None; lang is
config.language_code.  With publication_date None the function prints
an abort message and returns False before building any claim object and
before any network activity.  Otherwise datetime.fromisoformat parses
the date (raising on invalid input), the claim with its qualifiers and
references is built, and item.write submits it; the word argument is
never read.  The Bool result is the truthiness of the value
present_sentence tests. -/
def add_usage_example (o : Oracle)
    (document_id sentence lid form_id sense_id word publication_date : Option String)
    (lang : String) : Except Halt (Bool × List Event) :=
  match publication_date with
  | none => .ok (false, [])
  | some d =>
    if o.isoValid d then
      let payload : EditPayload :=
        { document_id := document_id
          sentence := sentence
          lid := lid
          form_id := form_id
          sense_id := sense_id
          publication_date := d
          lang := lang }
      .ok (o.submitEdit payload, [Event.claimBuilt payload, Event.submitted payload (o.submitEdit payload)])
    else
      .error .uncaughtException

/-- A concrete result row used in concrete evaluations. -/
def row0 : Row := { l := "L1", form := "L1-F1", word := "w", catLabel := "noun" }

/-- The extract_data dictionary of row0: the lexeme id L1 and the form
id L1-F1 differ, as they always do for real Wikidata data. -/
def data0 : RowData :=
  { lid := "L1", form_id := "L1-F1", word := "w"
    word_spaces := " w ", word_angle_parens := ">w<", category := "noun" }

/-- C1: the round-trip of the exclusion store fails.  Saving the row
with form id L1-F1 stores the record under the key L1-F1 with the
configured language, yet the lookup on the very same row data and the
very same backing content returns false, because in_exclude_list
compares the lexeme id L1 of the row against the stored keys instead
of the form id L1-F1. -/
theorem save_then_lookup_misses :
    save_to_exclude_list none (some data0) "sv" "2020-01-01"
      = .ok (.valid [("L1-F1", { word := "w", date := "2020-01-01", lang := "sv" })])
    ∧ in_exclude_list
        (some (.valid [("L1-F1", { word := "w", date := "2020-01-01", lang := "sv" })]))
        data0 "sv"
      = .ok false := by
  exact ⟨rfl, rfl⟩

/-- C7: add_usage_example called with publication_date None returns
False immediately, for every combination of the other arguments: no
claim object is built and no network call happens (the event trace is
empty). -/
theorem missing_publication_date_aborts (o : Oracle)
    (document_id sentence lid form_id sense_id word : Option String) (lang : String) :
    add_usage_example o document_id sentence lid form_id sense_id word none lang
      = .ok (false, []) := by
  rfl

/-- C10: when exclude_list.json exists with empty or unparseable
content, both store operations end the process with a non-zero exit
code (exit(1) for the empty case in save_to_exclude_list, an uncaught
json.loads exception in the other cases) instead of proceeding with an
empty exclusion set. -/
theorem empty_or_corrupt_store_is_fatal (data : RowData) (lang dateNow : String) :
    fatalNonzero (save_to_exclude_list (some .empty) (some data) lang dateNow) = true
    ∧ fatalNonzero (save_to_exclude_list (some .corrupt) (some data) lang dateNow) = true
    ∧ fatalNonzero (in_exclude_list (some .empty) data lang) = true
    ∧ fatalNonzero (in_exclude_list (some .corrupt) data lang) = true := by
  exact ⟨rfl, rfl, rfl, rfl⟩

/-- Python str.strip with no argument: drop whitespace from both ends
of the string. -/
def pyStrip (s : String) : String :=
  ⟨(((s.data.dropWhile Char.isWhitespace).reverse.dropWhile Char.isWhitespace).reverse)⟩

/-- Python str.split(" "): cut the character list at every single
space, keeping empty pieces between consecutive spaces; the result is
never empty (splitting the empty string gives one empty piece). -/
def splitAtSpaces : List Char → List (List Char)
  | [] => [[]]
  | c :: cs =>
    let r := splitAtSpaces cs
    if c = ' ' then [] :: r
    else
      match r with
      | [] => [[c]]
      | w :: ws => (c :: w) :: ws

/-- count_words of util.py: the length of string.strip().split(" "). -/
def count_words (s : String) : Nat :=
  (splitAtSpaces (pyStrip s).data).length

/-- The sort key relation of the sorted(..., key=len) call in
process_result: comparison of character counts of the sentence
strings. -/
def lenLe (a b : String) : Prop := a.length ≤ b.length

instance : DecidableRel lenLe := fun a b => inferInstanceAs (Decidable (a.length ≤ b.length))

instance : IsTotal String lenLe := ⟨fun a b => Nat.le_total a.length b.length⟩

instance : IsTrans String lenLe := ⟨fun _ _ _ h h2 => Nat.le_trans h h2⟩

/-- The sorted(sentences_and_result_data, key=len) call of
process_result: a stable sort of the dictionary keys by character
count.  Python sorted is stable, so insertion sort with the reflexive
key comparison produces exactly its output. -/
def sortByLen (l : List String) : List String :=
  List.insertionSort lenLe l

/-- prompt_choose_sense of util.py, given the first integer the
operator manages to enter.  A choice between 1 and the number of
senses returns that entry of the numbered sense dictionary; any other
integer cancels and returns False (here none). -/
def prompt_choose_sense (choice : Int) (senses : List Sense) : Option Sense :=
  if 0 < choice ∧ choice ≤ (senses.length : Int) then
    senses[choice.toNat - 1]?
  else
    none

/-- prompt_sense_approval of util.py.  Fetches the senses of the entry
named by the lid field.  With exactly one sense, a yes answer approves
it.  With several senses, prompt_choose_sense picks one or cancels.
With zero senses the code calls count_number_of_senses_with_P5137 with
the string literal L35455 rather than the lid of the current entry,
and returns False after printing either the gloss-repair message (the
count is positive) or the unexpected-state diagnostic (the count is
zero); the sentence argument is never read. -/
def prompt_sense_approval (o : Oracle) (sentence : String) (data : RowData) :
    Option SenseApproval × List Event :=
  let senses := o.fetchSenses data.lid
  let number_of_senses := senses.length
  if number_of_senses > 0 then
    if number_of_senses = 1 then
      match senses with
      | s :: _ =>
        if o.yesNo s.gloss then
          (some { sense_id := s.sense_id, sense_gloss := s.gloss }, [])
        else
          (none, [])
      | [] => (none, [])
    else
      match prompt_choose_sense (o.chooseInput data.lid) senses with
      | some s => (some { sense_id := s.sense_id, sense_gloss := s.gloss }, [])
      | none => (none, [])
  else
    let count := o.countP5137 "L35455"
    if count > 0 then
      (none, [Event.countQueried "L35455", Event.reportedGlossRepair data.lid])
    else
      (none, [Event.countQueried "L35455", Event.reportedNoSenses])

/-- present_sentence of util.py.  The result mirrors the Python return
value: some true after a successful submission, some false for a
rejection, a failed submission or the always-true sense fields check
failing, and none both for an operator skip and for the implicit None
return the function falls into when prompt_sense_approval returns
False.  The sense_id and sense_gloss values are strings built from
SPARQL results, so the is-not-None test on them always passes. -/
def present_sentence (o : Oracle) (data : RowData) (sentence : String)
    (document_id : String) (date : Option String) (lang : String) :
    Except Halt (Option Bool × List Event) :=
  match o.suitable sentence with
  | some true =>
    match prompt_sense_approval o sentence data with
    | (some sc, ev1) =>
      match add_usage_example o (some document_id) (some sentence) (some data.lid)
          (some data.form_id) (some sc.sense_id) (some data.word) date lang with
      | .error h => .error h
      | .ok (true, ev2) => .ok (some true, ev1 ++ ev2 ++ [Event.watchlisted data.lid])
      | .ok (false, ev2) => .ok (some false, ev1 ++ ev2)
    | (none, ev1) => .ok (none, ev1)
  | none => .ok (none, [])
  | some false => .ok (some false, [])

/-- The for loop of process_result over the sorted sentence list.  Each
iteration prints the presentation banner (recorded as a presented
event), looks the sentence up in the dictionary and runs
present_sentence.  A True or None result appends the form to the
exclusion store and returns; a False result moves to the next
sentence; falling off the end of the list returns with the store
untouched. -/
def process_result_loop (o : Oracle) (data : RowData) (smap : SentencesMap)
    (lang dateNow : String) : Option FileContent → List String →
    Except Halt (Option FileContent × List Event)
  | file, [] => .ok (file, [])
  | file, sentence :: rest =>
    match List.lookup sentence smap with
    | none => .error .uncaughtException
    | some rd =>
      match present_sentence o data sentence rd.document_id rd.date lang with
      | .error h => .error h
      | .ok (r, ev) =>
        if r = some true ∨ r = none then
          match save_to_exclude_list file (some data) lang dateNow with
          | .error h => .error h
          | .ok f2 => .ok (some f2, (Event.presented sentence :: ev) ++ [Event.saved data.form_id])
        else
          match process_result_loop o data smap lang dateNow file rest with
          | .error h => .error h
          | .ok (f2, evs) => .ok (f2, (Event.presented sentence :: ev) ++ evs)

/-- The branch of process_result taken when the sentence dictionary is
not None: sort the keys by character count and run the presentation
loop. -/
def process_result_with (o : Oracle) (data : RowData) (smap : SentencesMap)
    (lang dateNow : String) (file : Option FileContent) :
    Except Halt (Option FileContent × List Event) :=
  process_result_loop o data smap lang dateNow file (sortByLen (smap.map Prod.fst))

/-- get_sentences_from_apis of util.py.  The function prints a banner
and calls riksdagen.get_records(data), but discards that result and
contains no return statement, so it returns None for every row. -/
def get_sentences_from_apis (r : Row) : Option SentencesMap :=
  none

/-- process_result of util.py: branch on the result of
get_sentences_from_apis; the None branch prints the no-suitable-
sentences message and appends the form to the exclusion store. -/
def process_result (o : Oracle) (r : Row) (data : RowData)
    (lang dateNow : String) (file : Option FileContent) :
    Except Halt (Option FileContent × List Event) :=
  match get_sentences_from_apis r with
  | some smap => process_result_with o data smap lang dateNow file
  | none =>
    match save_to_exclude_list file (some data) lang dateNow with
    | .error h => .error h
    | .ok f2 => .ok (some f2, [Event.saved data.form_id])

/-- Outcome of the process_lexeme_data loop: the completion branch that
prints the no-more-results message and calls exit(0), a fatal ending,
or the model artifact of the supplied stream of random draws running
out while the loop is still going.  Each outcome carries the rows
appended to earlier_choices so far and the recorded events. -/
inductive SamplerOutcome where
  | completed (visited : List Row) (events : List Event)
  | outOfChoices (visited : List Row) (events : List Event)
  | fatal (h : Halt) (events : List Event)
deriving DecidableEq, Repr

/-- Record events that happened before the rest of the run. -/
def SamplerOutcome.prepend (ev : List Event) : SamplerOutcome → SamplerOutcome
  | .completed v e => .completed v (ev ++ e)
  | .outOfChoices v e => .outOfChoices v (ev ++ e)
  | .fatal h e => .fatal h (ev ++ e)

/-- The events of an outcome. -/
def SamplerOutcome.events : SamplerOutcome → List Event
  | .completed _ e => e
  | .outOfChoices _ e => e
  | .fatal _ e => e

/-- True for the completion branch (exit code zero). -/
def SamplerOutcome.isCompleted : SamplerOutcome → Bool
  | .completed _ _ => true
  | _ => false

/-- The while loop of process_lexeme_data.  size is
config.sparql_results_size, choices the stream of random.choice draws
(each modelled as an index into results, reduced modulo the length as
random.choice always yields an element; on an empty result list
random.choice raises).  A draw equal by value to an earlier choice is
skipped, as the Python in operator on a list of dictionaries compares
by value.  A fresh draw is appended to earlier_choices, then dropped
when in_exclude_list matches, and otherwise handed to process_result.
The loop exits through the completion branch only when the length of
earlier_choices equals size. -/
def process_lexeme_data_loop (results : List Row) (size : Nat) (o : Oracle)
    (lang dateNow : String) : List Nat → Option FileContent → List Row → SamplerOutcome
  | choices, file, earlier =>
    if earlier.length = size then .completed earlier []
    else
      match choices with
      | [] => .outOfChoices earlier []
      | c :: rest =>
        match results[c % results.length]? with
        | none => .fatal .uncaughtException []
        | some r =>
          if r ∈ earlier then
            process_lexeme_data_loop results size o lang dateNow rest file earlier
          else
            let data := extract_data r
            match in_exclude_list file data lang with
            | .error h => .fatal h []
            | .ok true =>
              process_lexeme_data_loop results size o lang dateNow rest file (earlier ++ [r])
            | .ok false =>
              match process_result o r data lang dateNow file with
              | .error h => .fatal h []
              | .ok (file2, ev) =>
                (process_lexeme_data_loop results size o lang dateNow rest file2 (earlier ++ [r])).prepend ev

/-- process_lexeme_data of util.py: print the word list, then run the
random loop with an empty earlier_choices list. -/
def process_lexeme_data (results : List Row) (size : Nat) (o : Oracle)
    (lang dateNow : String) (choices : List Nat) (file : Option FileContent) : SamplerOutcome :=
  process_lexeme_data_loop results size o lang dateNow choices file []

/-- C2: get_sentences_from_apis returns None for every row, so
process_result unconditionally takes the no-suitable-sentences branch:
its whole effect is the save_to_exclude_list call, its event trace is
exactly one store write and contains no presentation, sense resolution
or submission. -/
theorem process_result_always_excludes (o : Oracle) (r : Row) (data : RowData)
    (lang dateNow : String) (file : Option FileContent) :
    get_sentences_from_apis r = none
    ∧ process_result o r data lang dateNow file
      = (save_to_exclude_list file (some data) lang dateNow).map
          (fun f2 => (some f2, [Event.saved data.form_id])) := by
  refine ⟨rfl, ?_⟩
  unfold process_result
  cases save_to_exclude_list file (some data) lang dateNow <;> rfl

lemma SamplerOutcome.events_prepend (ev : List Event) (x : SamplerOutcome) :
    (x.prepend ev).events = ev ++ x.events := by
  cases x <;> rfl

lemma process_result_events (o : Oracle) (r : Row) (data : RowData)
    (lang dateNow : String) (file f2 : Option FileContent) (ev : List Event)
    (h : process_result o r data lang dateNow file = .ok (f2, ev)) :
    ev = [Event.saved data.form_id] := by
  simp only [process_result, get_sentences_from_apis] at h
  cases hs : save_to_exclude_list file (some data) lang dateNow with
  | error h2 => rw [hs] at h; simp at h
  | ok f3 => rw [hs] at h; simp at h; exact h.2.symm

lemma sampler_events_no_submit (results : List Row) (size : Nat) (o : Oracle)
    (lang dateNow : String) :
    ∀ (choices : List Nat) (file : Option FileContent) (earlier : List Row),
      (process_lexeme_data_loop results size o lang dateNow choices file earlier).events.filter
        Event.isSubmitted = [] := by
  intro choices
  induction choices with
  | nil =>
    intro file earlier
    simp only [process_lexeme_data_loop]
    split <;> rfl
  | cons c rest ih =>
    intro file earlier
    simp only [process_lexeme_data_loop]
    split
    · rfl
    · split
      · rfl
      · split
        · exact ih file earlier
        · split
          · rfl
          · exact ih file (earlier ++ _)
          · split
            · rfl
            · rename_i file2 ev hpr
              have hev := process_result_events _ _ _ _ _ _ _ _ hpr
              subst hev
              rw [SamplerOutcome.events_prepend, List.filter_append, ih]
              rfl

/-- C3: no usage-example edit is ever submitted from the orchestration
loop, in particular never for a form whose record was in the exclusion
store with a matching language when the row was drawn: the event trace
of every run of process_lexeme_data, over any results, size, oracle,
choice stream and initial store state, contains no submission event at
all, because get_sentences_from_apis yields no sentences and so
process_result never reaches present_sentence. -/
theorem no_submission_events_in_sampler (results : List Row) (size : Nat) (o : Oracle)
    (lang dateNow : String) (choices : List Nat) (file : Option FileContent) :
    (process_lexeme_data results size o lang dateNow choices file).events.filter
      Event.isSubmitted = [] :=
  sampler_events_no_submit results size o lang dateNow choices file []

/-- An operator who rejects every sentence; the remaining oracle
channels return arbitrary concrete values that such a run never
consults. -/
def oRej : Oracle :=
  { fetchSenses := fun _ => []
    countP5137 := fun _ => 0
    yesNo := fun _ => false
    chooseInput := fun _ => 0
    suitable := fun _ => some false
    isoValid := fun _ => false
    submitEdit := fun _ => false }

lemma SamplerOutcome.isCompleted_prepend (ev : List Event) (x : SamplerOutcome) :
    (x.prepend ev).isCompleted = x.isCompleted := by
  cases x <;> rfl

lemma SamplerOutcome.prepend_completed (ev : List Event) (x : SamplerOutcome)
    (v : List Row) (e : List Event) (h : x.prepend ev = .completed v e) :
    ∃ e2, x = .completed v e2 := by
  cases x with
  | completed v2 e2 =>
    simp only [SamplerOutcome.prepend, SamplerOutcome.completed.injEq] at h
    exact ⟨e2, by rw [h.1]⟩
  | outOfChoices v2 e2 => simp [SamplerOutcome.prepend] at h
  | fatal h2 e2 => simp [SamplerOutcome.prepend] at h

lemma loop_single_never_completes (o : Oracle) (lang dateNow : String) :
    ∀ (choices : List Nat) (file : Option FileContent) (earlier : List Row),
      (earlier = [] ∨ earlier = [row0]) →
      (process_lexeme_data_loop [row0] 2 o lang dateNow choices file earlier).isCompleted
        = false := by
  intro choices
  induction choices with
  | nil =>
    intro file earlier hE
    simp only [process_lexeme_data_loop]
    split
    · rename_i hlen
      rcases hE with rfl | rfl <;> simp at hlen
    · rfl
  | cons c rest ih =>
    intro file earlier hE
    simp only [process_lexeme_data_loop]
    split
    · rename_i hlen
      rcases hE with rfl | rfl <;> simp at hlen
    · have hr : ([row0] : List Row)[c % ([row0] : List Row).length]? = some row0 := by
        simp [Nat.mod_one]
      rw [hr]
      split
      · rfl
      · rename_i r2 heq
        injection heq with heq2
        subst heq2
        split
        · exact ih file earlier hE
        · rename_i hmem
          have hE2 : earlier = [] := by
            rcases hE with rfl | rfl
            · rfl
            · exact absurd (List.mem_singleton_self row0) hmem
          subst hE2
          split
          · rfl
          · exact ih file _ (Or.inr rfl)
          · split
            · rfl
            · rw [SamplerOutcome.isCompleted_prepend]
              exact ih _ _ (Or.inr rfl)

/-- C4 counterexample: a result set of size N = 1 (one row) with
config.sparql_results_size = 2.  The loop can never reach the
completion branch, whatever the stream of random draws: it visits the
single distinct row and then spins forever, because the exit test
compares the length of earlier_choices with the configured size, not
with the size of the result set.  The claim as stated, that the loop
completes after visiting the N distinct rows, is therefore false. -/
theorem sampler_never_completes_on_small_result_set :
    ¬ ∃ choices : List Nat,
      (process_lexeme_data [row0] 2 oRej "sv" "2020-01-01" choices none).isCompleted
        = true := by
  rintro ⟨choices, h⟩
  rw [process_lexeme_data,
    loop_single_never_completes oRej "sv" "2020-01-01" choices none [] (Or.inl rfl)] at h
  exact Bool.false_ne_true h

lemma loop_completed_inv (results : List Row) (size : Nat) (o : Oracle)
    (lang dateNow : String) :
    ∀ (choices : List Nat) (file : Option FileContent) (earlier visited : List Row)
      (ev : List Event),
      earlier.Nodup → earlier ⊆ results →
      process_lexeme_data_loop results size o lang dateNow choices file earlier
        = .completed visited ev →
      visited.length = size ∧ visited.Nodup ∧ visited ⊆ results := by
  intro choices
  induction choices with
  | nil =>
    intro file earlier visited ev hnd hsub h
    simp only [process_lexeme_data_loop] at h
    split at h
    · rename_i hlen
      cases h
      exact ⟨hlen, hnd, hsub⟩
    · cases h
  | cons c rest ih =>
    intro file earlier visited ev hnd hsub h
    simp only [process_lexeme_data_loop] at h
    split at h
    · rename_i hlen
      cases h
      exact ⟨hlen, hnd, hsub⟩
    · split at h
      · cases h
      · rename_i r hr
        have hrmem : r ∈ results := List.getElem?_mem hr
        split at h
        · exact ih file earlier visited ev hnd hsub h
        · rename_i hmem
          have hnd2 : (earlier ++ [r]).Nodup := by
            rw [← List.concat_eq_append]
            exact List.Nodup.concat hmem hnd
          have hsub2 : earlier ++ [r] ⊆ results :=
            List.append_subset.mpr ⟨hsub, by simpa using hrmem⟩
          split at h
          · cases h
          · exact ih file (earlier ++ [r]) visited ev hnd2 hsub2 h
          · split at h
            · cases h
            · rename_i file2 ev2 hpr
              obtain ⟨e3, h3⟩ := SamplerOutcome.prepend_completed _ _ _ _ h
              exact ih file2 (earlier ++ [r]) visited e3 hnd2 hsub2 h3

/-- C4 amended: the loop reaches the completion branch (the
no-more-results message and exit code zero) exactly when the number of
distinct rows appended to earlier_choices reaches
config.sparql_results_size, so a completed run has visited exactly
size distinct rows, all drawn from the result set, none of them twice;
when the result set holds fewer distinct rows than size, the loop
never completes. -/
theorem sampler_completion_visits (results : List Row) (size : Nat) (o : Oracle)
    (lang dateNow : String) (choices : List Nat) (file : Option FileContent)
    (visited : List Row) (ev : List Event)
    (h : process_lexeme_data results size o lang dateNow choices file
      = .completed visited ev) :
    visited.length = size ∧ visited.Nodup ∧ visited ⊆ results :=
  loop_completed_inv results size o lang dateNow choices file [] visited ev
    List.nodup_nil (List.nil_subset results) h

/-- Witness for C4 amended: with one row and size 1 the run with the
single draw 0 completes after visiting that row once. -/
theorem sampler_completion_visits_witness :
    ([row0] : List Row).length = 1 ∧ ([row0] : List Row).Nodup
      ∧ ([row0] : List Row) ⊆ [row0] :=
  sampler_completion_visits [row0] 1 oRej "sv" "2020-01-01" [0] none [row0]
    [Event.saved "L1-F1"] rfl

lemma lookup_of_mem_keys (smap : SentencesMap) (s : String)
    (h : s ∈ smap.map Prod.fst) : ∃ rd, List.lookup s smap = some rd := by
  induction smap with
  | nil => simp at h
  | cons p rest ih =>
    obtain ⟨k, v⟩ := p
    by_cases hp : s = k
    · exact ⟨v, by simp [List.lookup, hp]⟩
    · simp only [List.map_cons, List.mem_cons] at h
      rcases h with h | h
      · exact absurd h hp
      · obtain ⟨rd, hrd⟩ := ih h
        refine ⟨rd, ?_⟩
        rw [List.lookup]
        simp [beq_eq_false_iff_ne.mpr hp, hrd]

lemma loop_rejectAll (o : Oracle) (data : RowData) (smap : SentencesMap)
    (lang dateNow : String) (h : ∀ s, o.suitable s = some false) :
    ∀ (l : List String) (file : Option FileContent),
      (∀ s ∈ l, s ∈ smap.map Prod.fst) →
      process_result_loop o data smap lang dateNow file l
        = .ok (file, l.map Event.presented) := by
  intro l
  induction l with
  | nil => intro file _; rfl
  | cons s rest ih =>
    intro file hmem
    obtain ⟨rd, hrd⟩ := lookup_of_mem_keys smap s (hmem s (by simp))
    have hps : present_sentence o data s rd.document_id rd.date lang
        = .ok (some false, []) := by
      simp only [present_sentence, h s]
    simp only [process_result_loop, hrd, hps]
    rw [if_neg (by simp)]
    rw [ih file (fun s2 hs2 => hmem s2 (List.mem_cons_of_mem s hs2))]
    rfl

/-- A one-sentence batch used in concrete evaluations. -/
def smapOne : SentencesMap := [("a b", { document_id := "doc1", date := some "2020-01-01" })]

/-- C6 counterexample: the single candidate sentence is rejected (the
operator answers no), and process_result returns with the store
untouched and no store write in the trace, so the form is not added to
the exclusion store after the last rejection, contrary to the claim. -/
theorem all_rejected_not_excluded :
    process_result_with oRej data0 smapOne "sv" "2020-02-02" none
      = .ok (none, [Event.presented "a b"])
    ∧ ([Event.presented "a b"].filter Event.isSaved) = [] := by
  exact ⟨rfl, rfl⟩

/-- C6 amended: when the operator rejects every candidate sentence,
the presentation loop falls off the end of the sentence list and
process_result returns with the exclusion store unchanged and no
store write: the form is added on acceptance with successful
submission, on a sense no-match fall-through, on a skip, or when no
sentences are found, but not after the last rejection. -/
theorem all_rejected_leaves_store_unchanged (o : Oracle) (data : RowData)
    (smap : SentencesMap) (lang dateNow : String) (file : Option FileContent)
    (h : ∀ s, o.suitable s = some false) :
    process_result_with o data smap lang dateNow file
      = .ok (file, (sortByLen (smap.map Prod.fst)).map Event.presented) := by
  unfold process_result_with
  exact loop_rejectAll o data smap lang dateNow h _ file
    (fun s hs => (List.mem_insertionSort lenLe).mp hs)

/-- Witness for C6 amended, at the one-sentence batch with a rejecting
operator. -/
theorem all_rejected_leaves_store_unchanged_witness :
    process_result_with oRej data0 smapOne "sv" "2020-02-02" none
      = .ok (none, (sortByLen (smapOne.map Prod.fst)).map Event.presented) :=
  all_rejected_leaves_store_unchanged oRej data0 smapOne "sv" "2020-02-02" none
    (fun _ => rfl)

lemma filter_orderedInsert_len (n : Nat) (a : String) :
    ∀ l : List String,
      (List.orderedInsert lenLe a l).filter (fun s => s.length == n)
        = ((a :: l).filter (fun s => s.length == n)) := by
  intro l
  induction l with
  | nil => rfl
  | cons b t ih =>
    rw [List.orderedInsert]
    by_cases hab : lenLe a b
    · rw [if_pos hab]
    · rw [if_neg hab]
      have hblt : b.length < a.length := Nat.lt_of_not_le hab
      by_cases ha : a.length = n
      · have hb : b.length ≠ n := by omega
        simp [List.filter_cons, ih, ha, hb]
      · simp only [List.filter_cons, ih]
        by_cases hbn : b.length = n
        · simp [ha, hbn]
        · simp [ha, hbn]

lemma filter_sortByLen (n : Nat) :
    ∀ l : List String,
      (sortByLen l).filter (fun s => s.length == n)
        = l.filter (fun s => s.length == n) := by
  intro l
  induction l with
  | nil => rfl
  | cons a t ih =>
    simp only [sortByLen, List.insertionSort] at ih ⊢
    rw [filter_orderedInsert_len]
    simp only [List.filter_cons, ih]

/-- C5 amended: the curator presents candidates in ascending order of
character count (Python len of the sentence string), not word count:
in a run where the operator rejects everything (so every candidate is
presented), the presented sequence is exactly the stable sort of the
dictionary keys by string length; that sort is sorted by length, a
permutation of the keys, and stable (candidates of equal length keep
their collaborator-provided order, stated as a filter identity). -/
theorem presentation_order_by_char_length (o : Oracle) (data : RowData)
    (smap : SentencesMap) (lang dateNow : String) (file : Option FileContent)
    (h : ∀ s, o.suitable s = some false) :
    process_result_with o data smap lang dateNow file
      = .ok (file, (sortByLen (smap.map Prod.fst)).map Event.presented)
    ∧ List.Sorted lenLe (sortByLen (smap.map Prod.fst))
    ∧ (sortByLen (smap.map Prod.fst)).Perm (smap.map Prod.fst)
    ∧ ∀ n : Nat, (sortByLen (smap.map Prod.fst)).filter (fun s => s.length == n)
        = (smap.map Prod.fst).filter (fun s => s.length == n) := by
  refine ⟨?_, ?_, ?_, ?_⟩
  · unfold process_result_with
    exact loop_rejectAll o data smap lang dateNow h _ file
      (fun s hs => (List.mem_insertionSort lenLe).mp hs)
  · exact List.sorted_insertionSort lenLe (smap.map Prod.fst)
  · exact List.perm_insertionSort lenLe (smap.map Prod.fst)
  · intro n
    exact filter_sortByLen n (smap.map Prod.fst)

/-- A five-word sentence of nine characters. -/
def sentFive : String := "a b c d e"

/-- A two-word sentence of twenty-one characters. -/
def sentTwo : String := "aaaaaaaaaa bbbbbbbbbb"

/-- An eight-word sentence of fifteen characters. -/
def sentEight : String := "a a a a a a a a"

/-- The three-sentence batch of the claim, with word counts 5, 2 and 8
in collaborator order. -/
def smapThree : SentencesMap :=
  [(sentFive, { document_id := "d1", date := none }),
   (sentTwo, { document_id := "d2", date := none }),
   (sentEight, { document_id := "d3", date := none })]

/-- C5 counterexample: for sentences of word counts 5, 2 and 8 the
claimed presentation order is the 2-word, the 5-word, then the 8-word
sentence, but the code sorts by character count and presents the
5-word sentence (9 characters) first, then the 8-word sentence
(15 characters), then the 2-word sentence (21 characters). -/
theorem presentation_order_not_by_word_count :
    count_words sentFive = 5 ∧ count_words sentTwo = 2 ∧ count_words sentEight = 8
    ∧ process_result_with oRej data0 smapThree "sv" "2020-02-02" none
        = .ok (none, [Event.presented sentFive, Event.presented sentEight,
            Event.presented sentTwo])
    ∧ [Event.presented sentFive, Event.presented sentEight, Event.presented sentTwo]
        ≠ [Event.presented sentTwo, Event.presented sentFive, Event.presented sentEight] := by
  refine ⟨rfl, rfl, rfl, rfl, by decide⟩

/-- Witness for C5 amended, at the three-sentence batch with a
rejecting operator. -/
theorem presentation_order_by_char_length_witness :
    process_result_with oRej data0 smapThree "sv" "2020-02-02" none
      = .ok (none, (sortByLen (smapThree.map Prod.fst)).map Event.presented) :=
  (presentation_order_by_char_length oRej data0 smapThree "sv" "2020-02-02" none
    (fun _ => rfl)).1

/-- The claim payload that add_usage_example builds from the pipeline
values when the publication date dt parses. -/
def builtPayload (data : RowData) (s document_id sense_id dt lang : String) : EditPayload :=
  { document_id := some document_id
    sentence := some s
    lid := some data.lid
    form_id := some data.form_id
    sense_id := some sense_id
    publication_date := dt
    lang := lang }

/-- An operator who accepts the sentence a, confirms the single sense,
and whose write call fails; every other sentence is rejected. -/
def oC8 : Oracle :=
  { fetchSenses := fun _ => [{ sense_id := "S1", gloss := "g" }]
    countP5137 := fun _ => 0
    yesNo := fun _ => true
    chooseInput := fun _ => 0
    suitable := fun s => if s = "a" then some true else some false
    isoValid := fun _ => true
    submitEdit := fun _ => false }

/-- A two-sentence batch: the accepted sentence a and a longer second
candidate bb. -/
def smapPair : SentencesMap :=
  [("a", { document_id := "d1", date := some "2020-01-01" }),
   ("bb", { document_id := "d2", date := some "2020-01-02" })]

/-- C8 counterexample: the first candidate is accepted, the sense is
confirmed and add_usage_example is invoked but the write fails.  The
run presents the second candidate afterwards and records no store
write at all: a failed submission does not transition to the excluding
state, contrary to the claim that success and failure both do. -/
theorem failed_submission_continues :
    process_result_with oC8 data0 smapPair "sv" "2020-02-02" none
      = .ok (none,
          [Event.presented "a",
           Event.claimBuilt (builtPayload data0 "a" "d1" "S1" "2020-01-01" "sv"),
           Event.submitted (builtPayload data0 "a" "d1" "S1" "2020-01-01" "sv") false,
           Event.presented "bb"])
    ∧ ([Event.presented "a",
        Event.claimBuilt (builtPayload data0 "a" "d1" "S1" "2020-01-01" "sv"),
        Event.submitted (builtPayload data0 "a" "d1" "S1" "2020-01-01" "sv") false,
        Event.presented "bb"].filter Event.isSaved) = [] := by
  exact ⟨rfl, rfl⟩

/-- C8 amended: after add_usage_example is invoked for an accepted
sentence with a confirmed sense and a parseable publication date, the
two submission outcomes diverge: a successful write appends the form
to the exclusion store and stops the iteration (no further candidate
is presented), while a failed write leaves the store untouched and
the loop moves on to the remaining candidates exactly as after a
rejection. -/
theorem submission_outcome_determines_exclusion (o : Oracle) (data : RowData)
    (smap : SentencesMap) (lang dateNow : String) (file : Option FileContent)
    (s : String) (rest : List String) (rd : DocData) (sc : Sense) (dt : String)
    (hlk : List.lookup s smap = some rd)
    (hsuit : o.suitable s = some true)
    (hsenses : o.fetchSenses data.lid = [sc])
    (hyes : o.yesNo sc.gloss = true)
    (hdate : rd.date = some dt)
    (hiso : o.isoValid dt = true) :
    (o.submitEdit (builtPayload data s rd.document_id sc.sense_id dt lang) = true →
      process_result_loop o data smap lang dateNow file (s :: rest)
        = (save_to_exclude_list file (some data) lang dateNow).map
            (fun f2 => (some f2,
              [Event.presented s,
               Event.claimBuilt (builtPayload data s rd.document_id sc.sense_id dt lang),
               Event.submitted (builtPayload data s rd.document_id sc.sense_id dt lang) true,
               Event.watchlisted data.lid, Event.saved data.form_id])))
    ∧ (o.submitEdit (builtPayload data s rd.document_id sc.sense_id dt lang) = false →
      process_result_loop o data smap lang dateNow file (s :: rest)
        = (process_result_loop o data smap lang dateNow file rest).map
            (fun pr => (pr.1,
              [Event.presented s,
               Event.claimBuilt (builtPayload data s rd.document_id sc.sense_id dt lang),
               Event.submitted (builtPayload data s rd.document_id sc.sense_id dt lang) false]
              ++ pr.2))) := by
  have hps : prompt_sense_approval o s data
      = (some { sense_id := sc.sense_id, sense_gloss := sc.gloss }, []) := by
    simp [prompt_sense_approval, hsenses, hyes]
  have hadd : add_usage_example o (some rd.document_id) (some s) (some data.lid)
      (some data.form_id) (some sc.sense_id) (some data.word) rd.date lang
      = .ok (o.submitEdit (builtPayload data s rd.document_id sc.sense_id dt lang),
          [Event.claimBuilt (builtPayload data s rd.document_id sc.sense_id dt lang),
           Event.submitted (builtPayload data s rd.document_id sc.sense_id dt lang)
             (o.submitEdit (builtPayload data s rd.document_id sc.sense_id dt lang))]) := by
    rw [hdate]
    simp [add_usage_example, hiso, builtPayload]
  constructor
  · intro hsub
    have hpres : present_sentence o data s rd.document_id rd.date lang
        = .ok (some true,
            [Event.claimBuilt (builtPayload data s rd.document_id sc.sense_id dt lang),
             Event.submitted (builtPayload data s rd.document_id sc.sense_id dt lang) true,
             Event.watchlisted data.lid]) := by
      simp [present_sentence, hsuit, hps, hadd, hsub]
    simp only [process_result_loop, hlk, hpres]
    rw [if_pos (by simp)]
    cases save_to_exclude_list file (some data) lang dateNow <;> rfl
  · intro hsub
    have hpres : present_sentence o data s rd.document_id rd.date lang
        = .ok (some false,
            [Event.claimBuilt (builtPayload data s rd.document_id sc.sense_id dt lang),
             Event.submitted (builtPayload data s rd.document_id sc.sense_id dt lang) false]) := by
      simp [present_sentence, hsuit, hps, hadd, hsub]
    simp only [process_result_loop, hlk, hpres]
    rw [if_neg (by simp)]
    cases process_result_loop o data smap lang dateNow file rest <;> rfl

/-- Witness for C8 amended: the failure branch at the concrete
two-sentence batch, where the loop on both sentences equals the loop
on the remaining sentence with the presentation, claim and failed
submission of the first sentence recorded in front. -/
theorem submission_outcome_determines_exclusion_witness :
    process_result_loop oC8 data0 smapPair "sv" "2020-02-02" none ["a", "bb"]
      = (process_result_loop oC8 data0 smapPair "sv" "2020-02-02" none ["bb"]).map
          (fun pr => (pr.1,
            [Event.presented "a",
             Event.claimBuilt (builtPayload data0 "a" "d1" "S1" "2020-01-01" "sv"),
             Event.submitted (builtPayload data0 "a" "d1" "S1" "2020-01-01" "sv") false]
            ++ pr.2)) :=
  (submission_outcome_determines_exclusion oC8 data0 smapPair "sv" "2020-02-02" none
    "a" ["bb"] { document_id := "d1", date := some "2020-01-01" }
    { sense_id := "S1", gloss := "g" } "2020-01-01" rfl rfl rfl rfl rfl rfl).2 rfl

/-- A sense fetch that returns no sense with a gloss in the configured
language for any entry, while the count query would report 7 suitable
senses for the entry L40 and none for any other id, in particular none
for the hardcoded L35455. -/
def oC9 : Oracle :=
  { fetchSenses := fun _ => []
    countP5137 := fun l => if l = "L40" then 7 else 0
    yesNo := fun _ => false
    chooseInput := fun _ => 0
    suitable := fun _ => some false
    isoValid := fun _ => false
    submitEdit := fun _ => false }

/-- Row data for the entry L40. -/
def dataL40 : RowData :=
  { lid := "L40", form_id := "L40-F1", word := "w"
    word_spaces := " w ", word_angle_parens := ">w<", category := "noun" }

/-- C9 (code bug): in the zero-senses branch the resolver calls the
count query with the hardcoded entry id L35455 instead of the lid of
the current entry.  Here the current entry L40 has 7 senses carrying
the concept link, yet the code queries L35455, gets 0, and reports the
unexpected-state diagnostic instead of the gloss-repair message for
L40; it returns no-match either way and records no store write. -/
theorem zero_senses_queries_hardcoded_entry :
    prompt_sense_approval oC9 "a sentence" dataL40
      = (none, [Event.countQueried "L35455", Event.reportedNoSenses])
    ∧ oC9.countP5137 dataL40.lid = 7 := by
  exact ⟨rfl, rfl⟩
